import Mathlib

/-!
Verification of the datahog sharded-store coordinator (src/datahog).

Shallow embedding of the two-phase-commit coordinator (src/datahog/db/txn.py),
the context registry and value wrapping (src/datahog/const/context.py,
src/datahog/const/util.py) and the relationship API entry points
(src/datahog/api/relationship.py).  Database query results, pool shard maps
and other external collaborators (the query layer and the connection pool are
not part of the coordinator) appear as explicit parameters, so every theorem
quantifies over their possible answers.
-/

namespace Datahog

/-! ## Two-phase commit handle (txn.py, class TwoPhaseCommit) -/

/-- Operations issued on a pooled connection by the two-phase handle. -/
inductive ConnOp
  | tpcRollback
  | tpcPrepare
  | tpcCommit
  | reset
deriving DecidableEq, Repr

/-- `TwoPhaseCommit.__exit__(klass, exc, tb)` from txn.py lines 80-90.
`failed` is `self._failed` at exit time, `exc` tells whether the enclosed
work raised.  Returns the new `_failed` flag and the connection operations
performed, in order.  Source:
`if self._failed or exc is not None: self._conn.tpc_rollback(); self._failed = True`
`else: self._conn.tpc_prepare(); self._conn.reset()`. -/
def tpcExit (failed exc : Bool) : Bool × List ConnOp :=
  if failed || exc then (true, [.tpcRollback])
  else (failed, [.tpcPrepare, .reset])

/-- Result of `TwoPhaseCommit.elsewhere()` from txn.py lines 92-113. -/
inductive ElseOutcome
  | preFailError
  | committed
  | rolledBackReraised
  | rolledBack
deriving DecidableEq, Repr

/-- `TwoPhaseCommit.elsewhere()` (txn.py lines 92-113).  `failedBefore` is
`self._failed` when the context manager is entered; `block` is the outcome of
the enclosed work: `none` means it raised, `some fd` means it completed with
`fd` recording whether `fail()` was called during the block.  Source:
`if self._failed: raise RuntimeError("TPC already failed")` (before the try,
so nothing is rolled back); on an exception from the block `self.rollback()`
then re-raise; otherwise `self.rollback()` if `self._failed` else
`self.commit()`. -/
def elsewhereRun (failedBefore : Bool) (block : Option Bool) :
    ElseOutcome × List ConnOp :=
  if failedBefore then (.preFailError, [])
  else
    match block with
    | none => (.rolledBackReraised, [.tpcRollback])
    | some fd => if fd then (.rolledBack, [.tpcRollback]) else (.committed, [.tpcCommit])

/-- C1: exiting the enter-scope of a TwoPhaseCommit handle rolls the shard
transaction back exactly when `fail()` was called or the enclosed work raised;
otherwise it prepares the transaction (`tpc_prepare`) and never commits, so the
first shard's work is durably prepared before any other shard is touched. -/
theorem tpc_exit_rolls_back_iff_failed_or_exc (failed exc : Bool) :
    ((tpcExit failed exc).2 = [ConnOp.tpcRollback] ↔ (failed || exc) = true) ∧
    ((failed || exc) = false →
      (tpcExit failed exc).2 = [ConnOp.tpcPrepare, ConnOp.reset]) ∧
    ConnOp.tpcCommit ∉ (tpcExit failed exc).2 := by
  revert failed exc
  decide

/-- Concrete instance of the C1 theorem: a clean exit prepares the
transaction without committing. -/
theorem tpc_exit_rolls_back_iff_failed_or_exc_witness :
    (tpcExit false false).2 = [ConnOp.tpcPrepare, ConnOp.reset] :=
  (tpc_exit_rolls_back_iff_failed_or_exc false false).2.1 rfl

/-- Claim C2 as stated is false: with `fail()` called before entering
`elsewhere()` and a block that completes cleanly, the code raises
RuntimeError("TPC already failed") without rolling the prepared transaction
back (the `raise` sits before the `try`), whereas the claim requires a
rollback. -/
theorem elsewhere_prior_fail_no_rollback_cex :
    ConnOp.tpcRollback ∉ (elsewhereRun true (some false)).2 ∧
    (elsewhereRun true (some false)).1 = ElseOutcome.preFailError := by
  decide

/-- C2 (amended): for a handle with a prepared transaction, `elsewhere()`
commits the prepared transaction when the enclosed block completes without
exception and `fail()` was never called; on an exception from the block it
rolls the prepared transaction back and re-raises; when `fail()` was called
during the block it rolls the prepared transaction back; but when `fail()`
was called before entering the block it raises RuntimeError immediately,
issuing no commit and no rollback. -/
theorem elsewhere_phase_behavior (failedBefore : Bool) (block : Option Bool) :
    ((elsewhereRun failedBefore block).1 = ElseOutcome.committed ↔
      (failedBefore = false ∧ block = some false)) ∧
    ((elsewhereRun failedBefore block).1 = ElseOutcome.committed →
      (elsewhereRun failedBefore block).2 = [ConnOp.tpcCommit]) ∧
    (failedBefore = false → block = none →
      (elsewhereRun failedBefore block).1 = ElseOutcome.rolledBackReraised ∧
      (elsewhereRun failedBefore block).2 = [ConnOp.tpcRollback]) ∧
    (failedBefore = false → block = some true →
      (elsewhereRun failedBefore block).1 = ElseOutcome.rolledBack ∧
      (elsewhereRun failedBefore block).2 = [ConnOp.tpcRollback]) ∧
    (failedBefore = true →
      (elsewhereRun failedBefore block).1 = ElseOutcome.preFailError ∧
      (elsewhereRun failedBefore block).2 = []) := by
  rcases failedBefore with _ | _ <;> rcases block with _ | b <;>
    first
    | decide
    | (rcases b with _ | _ <;> decide)


/-- Concrete instance of the C2 amended theorem: a clean block with no prior
failure commits the prepared transaction. -/
theorem elsewhere_phase_behavior_witness :
    (elsewhereRun false (some false)).2 = [ConnOp.tpcCommit] :=
  (elsewhere_phase_behavior false (some false)).2.1
    ((elsewhere_phase_behavior false (some false)).1.mpr ⟨rfl, rfl⟩)

/-! ## Recursive node removal (txn.py, `_remove_node`, lines 1325-1369)

The per-shard database work (`query.remove_edge`, `_remove_local_estates`) is
external to the coordinator; `_remove_node` is embedded as a function of the
outcomes of those transactions.  `edge` is the outcome of the initial
`remove_node_edge` transaction (`ok` = the edge row was removed, `notFound` =
`query.remove_edge` returned falsy, `raised` = the statement raised).  `loop`
lists, in estate-map iteration order, whether each `remove_node_shard`
transaction raised (`true` = raised; entries after the first `true` are never
executed because the exception aborts the while loop). -/

/-- Outcome of the initial edge-removal transaction in `_remove_node`. -/
inductive EdgeOut
  | ok
  | notFound
  | raised
deriving DecidableEq, Repr

/-- Final state reached by one `TwoPhaseCommit` coordinator. -/
inductive TpcFinal
  | prepared
  | rolledBack
  | committed
deriving DecidableEq, Repr

/-- Overall outcome of a `_remove_node` call. -/
inductive RNOut
  | returnedFalse
  | returnedTrue
  | raisedExc
deriving DecidableEq, Repr

/-- The `while estates:` loop of `_remove_node`: each iteration opens a
`remove_node_shard` coordinator; a clean body leaves it prepared (via
`__exit__`), a raising body leaves it rolled back (via `__exit__`) and aborts
the loop.  Returns whether an exception escaped and the states of the
coordinators in `tpcs` (the accumulator seeded with the already-prepared
initial coordinator). -/
def runEstateLoop : List Bool → List TpcFinal → Bool × List TpcFinal
  | [], tpcs => (false, tpcs)
  | r :: rest, tpcs =>
    if r then (true, tpcs ++ [.rolledBack])
    else runEstateLoop rest (tpcs ++ [.prepared])

/-- `_remove_node` (txn.py lines 1325-1369).  `notFound` on the initial edge
transaction calls `tpc.fail()` and returns False (the coordinator is rolled
back by `__exit__`); an exception there is rolled back by `__exit__` and
propagates.  Otherwise the estate loop runs; on an escaping exception the
`except` clause calls `tpc.rollback()` on every coordinator in `tpcs`
(errors swallowed) and re-raises, and on success the `else` clause calls
`tpc.commit()` on every coordinator in `tpcs` and returns True. -/
def removeNode (edge : EdgeOut) (loop : List Bool) : RNOut × List TpcFinal :=
  match edge with
  | .notFound => (.returnedFalse, [.rolledBack])
  | .raised => (.raisedExc, [.rolledBack])
  | .ok =>
    let r := runEstateLoop loop [.prepared]
    if r.1 then (.raisedExc, r.2.map fun _ => .rolledBack)
    else (.returnedTrue, r.2.map fun _ => .committed)

/-- Claim C4 as stated is false: when the initial edge removal reports that
the parent-child edge does not exist, no per-shard transaction raised, yet
`_remove_node` returns False (not True) and the one opened coordinator is
rolled back, not committed. -/
theorem remove_node_missing_edge_cex :
    (removeNode EdgeOut.notFound []).1 ≠ RNOut.returnedTrue ∧
    TpcFinal.committed ∉ (removeNode EdgeOut.notFound []).2 ∧
    (removeNode EdgeOut.notFound []).2 = [TpcFinal.rolledBack] := by
  decide

/-- Helper: a raise-free estate loop leaves every opened coordinator
prepared. -/
theorem runEstateLoop_no_raise (loop : List Bool) :
    ∀ tpcs, true ∉ loop →
      runEstateLoop loop tpcs = (false, tpcs ++ List.replicate loop.length .prepared) := by
  induction loop with
  | nil => intro tpcs _; simp [runEstateLoop]
  | cons r rest ih =>
    intro tpcs h
    have hr : r = false := by
      rcases r with _ | _
      · rfl
      · exact absurd (List.mem_cons_self true rest) h
    subst hr
    have hrest : true ∉ rest := fun hm => h (List.mem_cons_of_mem _ hm)
    simp [runEstateLoop, ih _ hrest, List.replicate_succ, List.append_assoc]

/-- Helper: an estate loop that hits a raise reports it, and at least the
initial coordinator plus the raising one were opened. -/
theorem runEstateLoop_raise (loop : List Bool) :
    ∀ tpcs, true ∈ loop →
      (runEstateLoop loop tpcs).1 = true ∧
      tpcs.length + 1 ≤ (runEstateLoop loop tpcs).2.length := by
  induction loop with
  | nil => intro tpcs h; exact absurd h (List.not_mem_nil true)
  | cons r rest ih =>
    intro tpcs h
    rcases r with _ | _
    · have hrest : true ∈ rest := by
        rcases List.mem_cons.mp h with h' | h'
        · exact absurd h'.symm (by decide)
        · exact h'
      have := ih (tpcs ++ [.prepared]) hrest
      simpa [runEstateLoop, Nat.add_comm, Nat.add_assoc] using
        ⟨this.1, Nat.le_trans (by simp) this.2⟩
    · simp [runEstateLoop]

/-- C4 (amended): in `_remove_node`, once the initial edge-removal transaction
has removed the edge, if any subsequently opened per-shard estate transaction
raises then every coordinator opened in the operation finishes rolled back
(at least the initial one and the raising one were opened) and the exception
is re-raised; if none raises, every opened coordinator (the initial one plus
one per estate shard) is committed and the call returns True.  When the edge
is missing the call instead returns False with the initial coordinator rolled
back, and an exception in the initial transaction propagates with the initial
coordinator rolled back. -/
theorem remove_node_rollback_commit_policy (loop : List Bool) :
    (true ∉ loop →
      removeNode EdgeOut.ok loop =
        (RNOut.returnedTrue, List.replicate (loop.length + 1) TpcFinal.committed)) ∧
    (true ∈ loop →
      (removeNode EdgeOut.ok loop).1 = RNOut.raisedExc ∧
      (∀ f ∈ (removeNode EdgeOut.ok loop).2, f = TpcFinal.rolledBack) ∧
      2 ≤ (removeNode EdgeOut.ok loop).2.length) ∧
    removeNode EdgeOut.notFound loop = (RNOut.returnedFalse, [TpcFinal.rolledBack]) ∧
    removeNode EdgeOut.raised loop = (RNOut.raisedExc, [TpcFinal.rolledBack]) := by
  refine ⟨?_, ?_, rfl, rfl⟩
  · intro h
    have := runEstateLoop_no_raise loop [.prepared] h
    simp only [removeNode, this]
    simp [List.map_replicate, List.replicate_succ, Nat.add_comm]
  · intro h
    have h1 := runEstateLoop_raise loop [.prepared] h
    constructor
    · simp [removeNode, h1.1]
    constructor
    · intro f hf
      simp only [removeNode, h1.1, if_pos] at hf
      rcases List.mem_map.mp hf with ⟨x, _, hx⟩
      exact hx.symm
    · have h2 := h1.2
      simp only [removeNode, h1.1, if_pos, List.length_map]
      simpa using h2

/-- Concrete instance of the C4 amended theorem: two clean estate shards give
three committed coordinators and a True return. -/
theorem remove_node_rollback_commit_policy_witness :
    removeNode EdgeOut.ok [false, false] =
      (RNOut.returnedTrue, List.replicate 3 TpcFinal.committed) :=
  (remove_node_rollback_commit_policy [false, false]).1 (by decide)

/-! ## Set alias (txn.py, `_set_alias`, lines 177-256)

`digest` is fixed throughout the call, so the pool's answers are parameters:
`readShards` is `pool.shards_for_lookup_hash(digest)` in probe order,
`insertShard` is `pool.shard_for_alias_write(digest)`, and `lookupAt s` is the
`base_id` of the owner row `query.select_alias_lookup` returns on shard `s`
(`none` when the shard has no row for this digest and ctx). -/

/-- Outcome reported to the caller of `_set_alias`. -/
inductive AliasOutcome
  | retFalse
  | retTrue
  | aliasInUse
  | noObject
deriving DecidableEq, Repr

/-- Outcome of `query.maybe_insert_alias_lookup` on the insert shard: either
the row was inserted, or it reported an existing owner `(False, owner_id)`,
or the statement raised IntegrityError and the follow-up
`query.select_alias_lookup` found the owner row. -/
inductive InsertRes
  | inserted
  | existing (owner_id : Nat)
  | integrityError (owner_id : Nat)
deriving DecidableEq, Repr

/-- The probe loop of `_set_alias` (lines 186-199): walk `readShards` in
order, skip the insert shard, stop at the first shard whose lookup returns an
owner.  Returns the shards actually probed, in order, and the owner found. -/
def probeShards (insertShard : Nat) (lookupAt : Nat → Option Nat) :
    List Nat → List Nat × Option Nat
  | [] => ([], none)
  | s :: rest =>
    if s = insertShard then probeShards insertShard lookupAt rest
    else
      match lookupAt s with
      | some o => ([s], some o)
      | none =>
        let r := probeShards insertShard lookupAt rest
        (s :: r.1, r.2)

/-- `_set_alias` (txn.py lines 177-256) after the digest computation, as a
function of the pool's and query layer's answers.  `ins` is the insert
attempt's outcome on the insert shard and `aliasRowInserted` tells whether
`query.insert_alias` on `shard_by_id(base_id)` inserted the alias row during
`elsewhere()` (falsy means the base object is missing, line 248-254).
Returns the probed shards and the call's outcome. -/
def setAlias (base_id insertShard : Nat) (readShards : List Nat)
    (lookupAt : Nat → Option Nat) (ins : InsertRes) (aliasRowInserted : Bool) :
    List Nat × AliasOutcome :=
  let p := probeShards insertShard lookupAt readShards
  match p.2 with
  | some o => (p.1, if o = base_id then .retFalse else .aliasInUse)
  | none =>
    match ins with
    | .inserted => (p.1, if aliasRowInserted then .retTrue else .noObject)
    | .existing oid => (p.1, if oid = base_id then .retFalse else .aliasInUse)
    | .integrityError oid => (p.1, if oid = base_id then .retFalse else .aliasInUse)

/-- Helper: when no probed shard has an owner row, the probe visits exactly
the non-insert shards, in list order. -/
theorem probeShards_all_empty (insertShard : Nat) (lookupAt : Nat → Option Nat)
    (readShards : List Nat)
    (h : ∀ s ∈ readShards, s ≠ insertShard → lookupAt s = none) :
    probeShards insertShard lookupAt readShards =
      (readShards.filter (fun s => s ≠ insertShard), none) := by
  induction readShards with
  | nil => simp [probeShards]
  | cons s rest ih =>
    have hrest : ∀ x ∈ rest, x ≠ insertShard → lookupAt x = none :=
      fun x hx => h x (List.mem_cons_of_mem _ hx)
    by_cases hs : s = insertShard
    · simp [probeShards, hs, ih hrest, List.filter_cons]
    · have := h s (List.mem_cons_self s rest) hs
      simp [probeShards, hs, this, ih hrest, List.filter_cons]

/-- Helper: an owner reported by the probe was found on a probed non-insert
shard. -/
theorem probeShards_owner_found (insertShard : Nat) (lookupAt : Nat → Option Nat)
    (readShards : List Nat) (o : Nat)
    (h : (probeShards insertShard lookupAt readShards).2 = some o) :
    ∃ s ∈ (probeShards insertShard lookupAt readShards).1,
      s ≠ insertShard ∧ lookupAt s = some o := by
  induction readShards with
  | nil => simp [probeShards] at h
  | cons s rest ih =>
    by_cases hs : s = insertShard
    · simp only [probeShards, if_pos hs] at h ⊢
      exact ih h
    · rcases hl : lookupAt s with _ | o'
      · simp only [probeShards, if_neg hs, hl] at h ⊢
        rcases ih h with ⟨t, ht, hne, hlt⟩
        exact ⟨t, List.mem_cons_of_mem _ ht, hne, hlt⟩
      · simp only [probeShards, if_neg hs, hl] at h ⊢
        have ho : o' = o := Option.some.inj h
        exact ⟨s, List.mem_cons_self _ _, hs, ho ▸ hl⟩

/-- C3: `_set_alias` probes every shard of `shards_for_lookup_hash(digest)`
except the insert shard, in order (stopping at the first owner found); a
probed owner with the caller's `base_id` makes the call return False and a
probed owner with a different `base_id` raises AliasInUse; and when no probe
hits, an "already exists" answer from the insert attempt on the insert shard
(directly or via IntegrityError) likewise returns False for the same owner
and raises AliasInUse for a different owner. -/
theorem set_alias_probe_and_ownership (base_id insertShard : Nat)
    (readShards : List Nat) (lookupAt : Nat → Option Nat) (ins : InsertRes)
    (aliasRowInserted : Bool) :
    ((∀ s ∈ readShards, s ≠ insertShard → lookupAt s = none) →
      (setAlias base_id insertShard readShards lookupAt ins aliasRowInserted).1 =
        readShards.filter (fun s => s ≠ insertShard)) ∧
    (∀ o, (probeShards insertShard lookupAt readShards).2 = some o →
      (∃ s ∈ (setAlias base_id insertShard readShards lookupAt ins aliasRowInserted).1,
        s ≠ insertShard ∧ lookupAt s = some o) ∧
      (o = base_id →
        (setAlias base_id insertShard readShards lookupAt ins aliasRowInserted).2 =
          AliasOutcome.retFalse) ∧
      (o ≠ base_id →
        (setAlias base_id insertShard readShards lookupAt ins aliasRowInserted).2 =
          AliasOutcome.aliasInUse)) ∧
    ((probeShards insertShard lookupAt readShards).2 = none →
      ∀ oid, (ins = InsertRes.existing oid ∨ ins = InsertRes.integrityError oid) →
        (oid = base_id →
          (setAlias base_id insertShard readShards lookupAt ins aliasRowInserted).2 =
            AliasOutcome.retFalse) ∧
        (oid ≠ base_id →
          (setAlias base_id insertShard readShards lookupAt ins aliasRowInserted).2 =
            AliasOutcome.aliasInUse)) := by
  refine ⟨?_, ?_, ?_⟩
  · intro h
    simp only [setAlias, probeShards_all_empty insertShard lookupAt readShards h]
    cases ins <;> simp
  · intro o ho
    refine ⟨?_, ?_, ?_⟩
    · have := probeShards_owner_found insertShard lookupAt readShards o ho
      simpa [setAlias, ho] using this
    · intro he; simp [setAlias, ho, he]
    · intro hne; simp [setAlias, ho, hne]
  · intro hnone oid hins
    rcases hins with rfl | rfl
    · exact ⟨fun he => by simp [setAlias, hnone, he], fun hne => by simp [setAlias, hnone, hne]⟩
    · exact ⟨fun he => by simp [setAlias, hnone, he], fun hne => by simp [setAlias, hnone, hne]⟩

/-- Concrete instance of the C3 theorem: with read shards [2, 5, 9], insert
shard 5 and an owner row for a different base_id on shard 9, shards 2 and 9
are probed in order and the call raises AliasInUse. -/
theorem set_alias_probe_and_ownership_witness :
    (setAlias 100 5 [2, 5, 9]
        (fun s => if s = 9 then some 200 else none) InsertRes.inserted true).2 =
      AliasOutcome.aliasInUse ∧
    (setAlias 100 5 [2, 5, 9]
        (fun s => if s = 9 then some 200 else none) InsertRes.inserted true).1 = [2, 9] :=
  ⟨((set_alias_probe_and_ownership 100 5 [2, 5, 9]
      (fun s => if s = 9 then some 200 else none) InsertRes.inserted true).2.1
      200 (by decide)).2.2 (by decide),
    by decide⟩

/-! ## Context registry (const/context.py) and metadata accessors (const/util.py)

The constant modules `const/table.py`, `const/storage.py`, `const/search.py`
and `const/flag.py` are not under src/.  Modelled from the spec: table kinds,
storage classes and search classes are distinct small-integer constants, and
`flag.META` maps a ctx to the set of flag integers registered for it (passed
as the `flagMeta` parameter below). -/

def NODE : Nat := 1
def PROPERTY : Nat := 2
def ALIAS : Nat := 3
def RELATIONSHIP : Nat := 4
def NAME : Nat := 5
def EDGE : Nat := 6

/-- Keys of the `table.NAMES` dict. -/
def tableKinds : List Nat := [NODE, PROPERTY, ALIAS, RELATIONSHIP, NAME, EDGE]

def stNULL : Nat := 0
def stINT : Nat := 1
def stSTR : Nat := 2
def stUTF : Nat := 3
def stSERIAL : Nat := 4

/-- `storage.ALL`. -/
def storageALL : List Nat := [stNULL, stINT, stSTR, stUTF, stSERIAL]

def searchPFX : Nat := 1
def searchPHON : Nat := 2

/-- The meta dict passed to `set_context` (const/context.py docstring):
optional `base_ctx`, `rel_ctx`, `storage`, `schema` (opaque schema id),
`search`, plus the `phonetic_loose` and `directed` booleans. -/
structure MetaDict where
  base_ctx : Option Nat
  rel_ctx : Option Nat
  storage : Option Nat
  schema : Option Nat
  searchCls : Option Nat
  phonetic_loose : Bool
  directed : Bool
deriving DecidableEq, Repr

/-- The process-wide mapping `context.META`: a ctx maps to the stored pair
`(tbl, meta)` where `meta` is `None` when `set_context` was called without a
meta dict. -/
def Registry : Type := Nat → Option (Nat × Option MetaDict)

/-- Errors `set_context` raises (ValueError strings and the PHONETIC
rejection). -/
inductive RegErr
  | duplicateValue
  | unrecognizedTable
  | missingRelatedCtx
  | unrecognizedStorage
  | phoneticUnsupported
deriving DecidableEq, Repr

/-- `set_context(value, tbl, meta)` (const/context.py lines 68-99): reject a
duplicate value and an unknown table kind; with a meta dict, require that a
supplied `base_ctx`/`rel_ctx` is already registered, that `storage` (default
NULL) is a known storage class, and reject `search == PHONETIC` (the fuzzy
library is not python3-compatible); then store `META[value] = (tbl, meta)`. -/
def setContext (reg : Registry) (value tbl : Nat) (meta : Option MetaDict) :
    Except RegErr Registry :=
  if (reg value).isSome then .error .duplicateValue
  else if tbl ∉ tableKinds then .error .unrecognizedTable
  else
    match meta with
    | none => .ok (fun c => if c = value then some (tbl, none) else reg c)
    | some m =>
      if m.base_ctx.any (fun b => (reg b).isNone) then .error .missingRelatedCtx
      else if m.rel_ctx.any (fun b => (reg b).isNone) then .error .missingRelatedCtx
      else if m.storage.getD stNULL ∉ storageALL then .error .unrecognizedStorage
      else if m.searchCls = some searchPHON then .error .phoneticUnsupported
      else .ok (fun c => if c = value then some (tbl, some m) else reg c)

/-- Python runtime errors the util accessors can raise. -/
inductive PyErr
  | indexError
  | attributeError
  | typeError
deriving DecidableEq, Repr

/-- A Python value as seen by the `ctx_tbl` caller: `None`, a table-kind
integer, or a meta dict.  `context.META` stores 2-tuples, so comparisons
against a table constant compare an int with a dict or `None`. -/
inductive PyV
  | vNone
  | vTbl (t : Nat)
  | vMeta (m : MetaDict)
deriving DecidableEq, Repr

/-- `util.ctx_tbl(ctx)` (const/util.py lines 11-13):
`context.META.get(ctx, (None, None))[1]` — index 1 of the stored pair, which
is the meta component (`None` or the meta dict), never the table constant. -/
def ctxTbl (reg : Registry) (ctx : Nat) : PyV :=
  match reg ctx with
  | none => .vNone
  | some (_, none) => .vNone
  | some (_, some m) => .vMeta m

/-- `util.ctx_base_ctx(ctx)` (const/util.py lines 16-24): returns `None` for
an unregistered ctx, otherwise evaluates `context.META[ctx][2]`, which is out
of range for the stored 2-tuple and raises IndexError (the `base_ctx` lookup
below it is unreachable). -/
def ctxBaseCtx (reg : Registry) (ctx : Nat) : Except PyErr (Option Nat) :=
  match reg ctx with
  | none => .ok none
  | some _ => .error .indexError

/-- `util.ctx_rel_ctx(ctx)` (const/util.py lines 40-48): same shape as
`ctx_base_ctx`, also indexing `META[ctx][2]`. -/
def ctxRelCtx (reg : Registry) (ctx : Nat) : Except PyErr (Option Nat) :=
  match reg ctx with
  | none => .ok none
  | some _ => .error .indexError

/-- `util.ctx_storage(ctx)` (const/util.py lines 64-67):
`meta = context.META.get(ctx); return meta and meta[2].get('storage')` —
`None` for an unregistered ctx, IndexError (pair indexed at 2) for a
registered one. -/
def ctxStorage (reg : Registry) (ctx : Nat) : Except PyErr (Option Nat) :=
  match reg ctx with
  | none => .ok none
  | some _ => .error .indexError

/-- `util.ctx_schema(ctx)` (const/util.py lines 70-73): same shape as
`ctx_storage`. -/
def ctxSchema (reg : Registry) (ctx : Nat) : Except PyErr (Option Nat) :=
  match reg ctx with
  | none => .ok none
  | some _ => .error .indexError

/-- `util.ctx_search(ctx)` (const/util.py lines 76-79): same shape as
`ctx_storage`. -/
def ctxSearch (reg : Registry) (ctx : Nat) : Except PyErr (Option Nat) :=
  match reg ctx with
  | none => .ok none
  | some _ => .error .indexError

/-! ## Flag codec and value wrapping (const/util.py lines 82-166) -/

/-- Error kinds raised by util and the API layer (datahog/error.py is a
collaborator; only the kinds matter). -/
inductive ApiErr
  | readOnly
  | badContext (ctx : Nat)
  | badFlag (i ctx : Nat)
  | storageClass
  | py (e : PyErr)
deriving DecidableEq, Repr

/-- The accumulation loop of `flags_to_int`: `num |= 1 << (i - 1)` for each
flag, failing with BadFlag when `i` is not registered for `ctx` in
`flag.META`. -/
def flagsToIntLoop (flagMeta : Nat → List Nat) (ctx : Nat) :
    List Nat → Nat → Except ApiErr Nat
  | [], num => .ok num
  | i :: rest, num =>
    if i ∉ flagMeta ctx then .error (.badFlag i ctx)
    else flagsToIntLoop flagMeta ctx rest (num ||| (1 <<< (i - 1)))

/-- `util.flags_to_int(ctx, flag_list)` (const/util.py lines 82-92). -/
def flagsToInt (reg : Registry) (flagMeta : Nat → List Nat) (ctx : Nat)
    (fl : List Nat) : Except ApiErr Nat :=
  if (reg ctx).isNone then .error (.badContext ctx)
  else flagsToIntLoop flagMeta ctx fl 0

/-- `util.int_to_flags(ctx, flag_num)` (const/util.py lines 95-108): the set
of registered flags whose bit is set, here listed in `flagMeta` order. -/
def intToFlags (reg : Registry) (flagMeta : Nat → List Nat) (ctx n : Nat) :
    Except ApiErr (List Nat) :=
  if (reg ctx).isNone then .error (.badContext ctx)
  else .ok ((flagMeta ctx).filter (fun i => n.testBit (i - 1)))

/-- A Python value crossing the storage layer: `None`, an int (or py2 long),
a byte string, or a unicode string. -/
inductive PyVal
  | vnone
  | vint (n : Int)
  | vstr (bs : List Nat)
  | vunicode (s : String)
deriving DecidableEq, Repr

/-- `util.storage_wrap(ctx, value)` (const/util.py lines 111-149).
`utf8enc` is python's `unicode.encode("utf8")`, `serialDumps` is
`mummy.dumps` (returning `none` on TypeError) and `schemaDumps` is
`schema(value).dumps()` (returning `none` on InvalidMessage); all three are
external codecs.  Note the first step `st = ctx_storage(ctx)` raises
IndexError for every registered ctx (see `ctxStorage`), so the storage-class
branches below are only reachable for an unregistered ctx, for which `st` is
`None` and the final BadContext fires. -/
def storageWrap (reg : Registry) (utf8enc : String → List Nat)
    (serialDumps : PyVal → Option (List Nat))
    (schemaDumps : Nat → PyVal → Option (List Nat))
    (ctx : Nat) (value : PyVal) : Except ApiErr PyVal :=
  match ctxStorage reg ctx with
  | .error e => .error (.py e)
  | .ok st =>
    if st = some stNULL then
      match value with
      | .vnone => .ok .vnone
      | _ => .error .storageClass
    else if st = some stINT then
      match value with
      | .vint n => .ok (.vint n)
      | _ => .error .storageClass
    else if st = some stSTR then
      match value with
      | .vstr bs => .ok (.vstr bs)
      | _ => .error .storageClass
    else if st = some stUTF then
      match value with
      | .vunicode s => .ok (.vstr (utf8enc s))
      | _ => .error .storageClass
    else if st = some stSERIAL then
      match ctxSchema reg ctx with
      | .error e => .error (.py e)
      | .ok (some sch) =>
        match schemaDumps sch value with
        | some bs => .ok (.vstr bs)
        | none => .error .storageClass
      | .ok none =>
        match serialDumps value with
        | some bs => .ok (.vstr bs)
        | none => .error .storageClass
    else .error (.badContext ctx)

/-- `util.storage_unwrap(ctx, value)` (const/util.py lines 152-166).
`serialLoads` is `mummy.loads` and `schemaUntrans` the schema's reverse
transform.  As in `storageWrap`, `ctx_storage` raises IndexError for every
registered ctx; and the UTF branch (source line 158) is
`return st.decode("utf8")` — an attribute access on the integer storage
constant rather than on `value`, hence AttributeError, never the decoded
text. -/
def storageUnwrap (reg : Registry) (serialLoads : PyVal → PyVal)
    (schemaUntrans : Nat → PyVal → PyVal) (ctx : Nat) (value : PyVal) :
    Except ApiErr PyVal :=
  match ctxStorage reg ctx with
  | .error e => .error (.py e)
  | .ok none => .error (.badContext ctx)
  | .ok (some st) =>
    if st = stUTF then .error (.py .attributeError)
    else if st = stSERIAL then
      match ctxSchema reg ctx with
      | .error e => .error (.py e)
      | .ok (some sch) => .ok (schemaUntrans sch (serialLoads value))
      | .ok none => .ok (serialLoads value)
    else .ok value

/-! ## Relationship API entry points (api/relationship.py)

Each entry point is a function of the pool's read-only flag, the registry,
`flag.META`, the external codecs, and the result the txn/query layer would
return; it yields the list of database-touching steps taken (acquiring a
connection, entering the txn layer) and the outcome. -/

/-- Database-touching steps of an API call. -/
inductive DbOp
  | getConn
  | txnCall
deriving DecidableEq, Repr

/-- `relationship.create` (api/relationship.py lines 15-91): read-only fence,
then the context guard
`ctx_tbl(ctx) != RELATIONSHIP or ctx_base_ctx(ctx) is None or ctx_rel_ctx(ctx) is None`
(short-circuit, left to right), then `flags_to_int`, `storage_wrap`, and
finally `txn.create_relationship_pair` whose boolean answer is `txnResult`. -/
def relCreate (readonly : Bool) (reg : Registry) (flagMeta : Nat → List Nat)
    (utf8enc : String → List Nat) (serialDumps : PyVal → Option (List Nat))
    (schemaDumps : Nat → PyVal → Option (List Nat)) (txnResult : Bool)
    (ctx : Nat) (value : PyVal) (fl : List Nat) :
    List DbOp × Except ApiErr Bool :=
  if readonly then ([], .error .readOnly)
  else if ctxTbl reg ctx ≠ PyV.vTbl RELATIONSHIP then ([], .error (.badContext ctx))
  else
    match ctxBaseCtx reg ctx with
    | .error e => ([], .error (.py e))
    | .ok none => ([], .error (.badContext ctx))
    | .ok (some _) =>
      match ctxRelCtx reg ctx with
      | .error e => ([], .error (.py e))
      | .ok none => ([], .error (.badContext ctx))
      | .ok (some _) =>
        match flagsToInt reg flagMeta ctx fl with
        | .error e => ([], .error e)
        | .ok _ =>
          match storageWrap reg utf8enc serialDumps schemaDumps ctx value with
          | .error e => ([], .error e)
          | .ok _ => ([DbOp.txnCall], .ok txnResult)

/-- `relationship.update` (api/relationship.py lines 171-216): read-only
fence, guard `ctx_tbl(ctx) != RELATIONSHIP or ctx_storage(ctx) is None`,
`storage_wrap` on the new value and (when supplied) the old value, then
`txn.update_relationship`. -/
def relUpdate (readonly : Bool) (reg : Registry)
    (utf8enc : String → List Nat) (serialDumps : PyVal → Option (List Nat))
    (schemaDumps : Nat → PyVal → Option (List Nat))
    (txnResult : Option Bool) (ctx : Nat) (value : PyVal)
    (old_value : Option PyVal) : List DbOp × Except ApiErr (Option Bool) :=
  if readonly then ([], .error .readOnly)
  else if ctxTbl reg ctx ≠ PyV.vTbl RELATIONSHIP then ([], .error (.badContext ctx))
  else
    match ctxStorage reg ctx with
    | .error e => ([], .error (.py e))
    | .ok none => ([], .error (.badContext ctx))
    | .ok (some _) =>
      match storageWrap reg utf8enc serialDumps schemaDumps ctx value with
      | .error e => ([], .error e)
      | .ok _ =>
        match old_value with
        | some ov =>
          match storageWrap reg utf8enc serialDumps schemaDumps ctx ov with
          | .error e => ([], .error e)
          | .ok _ => ([DbOp.txnCall], .ok txnResult)
        | none => ([DbOp.txnCall], .ok txnResult)

/-- `relationship.set_flags` (api/relationship.py lines 219-268): read-only
fence, guard `ctx_tbl(ctx) != RELATIONSHIP`, `flags_to_int` on `add` and
`clear`, `txn.set_relationship_flags` (answering `txnResult`), and
`int_to_flags` on a non-None answer. -/
def relSetFlags (readonly : Bool) (reg : Registry) (flagMeta : Nat → List Nat)
    (txnResult : Option Nat) (ctx : Nat) (addL clearL : List Nat) :
    List DbOp × Except ApiErr (Option (List Nat)) :=
  if readonly then ([], .error .readOnly)
  else if ctxTbl reg ctx ≠ PyV.vTbl RELATIONSHIP then ([], .error (.badContext ctx))
  else
    match flagsToInt reg flagMeta ctx addL with
    | .error e => ([], .error e)
    | .ok _ =>
      match flagsToInt reg flagMeta ctx clearL with
      | .error e => ([], .error e)
      | .ok _ =>
        match txnResult with
        | none => ([DbOp.txnCall], .ok none)
        | some n =>
          match intToFlags reg flagMeta ctx n with
          | .error e => ([DbOp.txnCall], .error e)
          | .ok fs => ([DbOp.txnCall], .ok (some fs))

/-- `relationship.shift` (api/relationship.py lines 271-310): read-only
fence, then `pool.get_by_id(anchor_id)` and `query.reorder_relationship`
whose boolean answer is `queryResult`. -/
def relShift (readonly : Bool) (queryResult : Bool) (_base_id _rel_id : Nat)
    (_forward : Bool) (_index : Nat) : List DbOp × Except ApiErr Bool :=
  if readonly then ([], .error .readOnly)
  else ([DbOp.getConn, DbOp.txnCall], .ok queryResult)

/-- `relationship.remove` (api/relationship.py lines 313-339): read-only
fence, then `txn.remove_relationship_pair` whose boolean answer is
`txnResult`. -/
def relRemove (readonly : Bool) (txnResult : Bool) (_base_id _rel_id _ctx : Nat) :
    List DbOp × Except ApiErr Bool :=
  if readonly then ([], .error .readOnly)
  else ([DbOp.txnCall], .ok txnResult)

/-- C5: on a pool whose `readonly` flag is set, every mutating relationship
entry point (create, update, set_flags, shift, remove) raises ReadOnly
before acquiring any connection or issuing any database statement: the step
trace is empty and the outcome is the ReadOnly error, for every registry,
flag table, codec and ctx. -/
theorem relationship_readonly_fence (reg : Registry)
    (flagMeta : Nat → List Nat) (utf8enc : String → List Nat)
    (serialDumps : PyVal → Option (List Nat))
    (schemaDumps : Nat → PyVal → Option (List Nat))
    (b b' : Bool) (optb : Option Bool) (optn : Option Nat)
    (ctx base_id rel_id index : Nat) (value : PyVal) (ov : Option PyVal)
    (fl addL clearL : List Nat) (forward : Bool) :
    relCreate true reg flagMeta utf8enc serialDumps schemaDumps b ctx value fl =
      ([], .error .readOnly) ∧
    relUpdate true reg utf8enc serialDumps schemaDumps optb ctx value ov =
      ([], .error .readOnly) ∧
    relSetFlags true reg flagMeta optn ctx addL clearL =
      ([], .error .readOnly) ∧
    relShift true b' base_id rel_id forward index = ([], .error .readOnly) ∧
    relRemove true b base_id rel_id ctx = ([], .error .readOnly) := by
  refine ⟨rfl, rfl, rfl, rfl, rfl⟩

/-- Index 1 of the stored pair `(tbl, meta)` as a Python value: the meta
component. -/
def pairSnd : Option MetaDict → PyV
  | none => .vNone
  | some m => .vMeta m

/-- C9: `set_context` stores the pair `(tbl, meta)`, `ctx_tbl` returns
element 1 of that pair (the meta component, never the table constant) and
`ctx_base_ctx` indexes element 2 of the pair, which is out of range; hence
the guard `util.ctx_tbl(ctx) != table.RELATIONSHIP` in `relationship.create`
and `relationship.set_flags` holds for every registered ctx — even one
registered with `tbl = RELATIONSHIP` — and both entry points raise
BadContext. -/
theorem registry_pair_vs_util_indexing (reg : Registry)
    (v tbl ctx tbl' : Nat) (meta mreg : Option MetaDict) (reg' : Registry)
    (flagMeta : Nat → List Nat) (utf8enc : String → List Nat)
    (serialDumps : PyVal → Option (List Nat))
    (schemaDumps : Nat → PyVal → Option (List Nat)) (b : Bool)
    (optn : Option Nat) (value : PyVal) (fl addL clearL : List Nat) :
    (setContext reg v tbl meta = .ok reg' → reg' v = some (tbl, meta)) ∧
    (reg ctx = some (tbl', mreg) →
      ctxTbl reg ctx = pairSnd mreg ∧
      ctxTbl reg ctx ≠ PyV.vTbl RELATIONSHIP ∧
      ctxBaseCtx reg ctx = .error .indexError ∧
      relCreate false reg flagMeta utf8enc serialDumps schemaDumps b
          ctx value fl = ([], .error (.badContext ctx)) ∧
      relSetFlags false reg flagMeta optn ctx addL clearL =
          ([], .error (.badContext ctx))) := by
  constructor
  · intro h
    cases meta with
    | none =>
      unfold setContext at h
      split at h
      · exact Except.noConfusion h
      split at h
      · exact Except.noConfusion h
      injection h with h'
      subst h'
      simp
    | some m =>
      unfold setContext at h
      split at h
      · exact Except.noConfusion h
      split at h
      · exact Except.noConfusion h
      dsimp only at h
      split at h
      · exact Except.noConfusion h
      split at h
      · exact Except.noConfusion h
      split at h
      · exact Except.noConfusion h
      split at h
      · exact Except.noConfusion h
      injection h with h'
      subst h'
      simp
  · intro h
    have htbl : ctxTbl reg ctx = pairSnd mreg := by
      unfold ctxTbl
      rw [h]
      cases mreg <;> rfl
    have hne : ctxTbl reg ctx ≠ PyV.vTbl RELATIONSHIP := by
      rw [htbl]; cases mreg <;> simp [pairSnd]
    have hbc : ctxBaseCtx reg ctx = .error .indexError := by
      unfold ctxBaseCtx; rw [h]
    refine ⟨htbl, hne, hbc, ?_, ?_⟩
    · simp [relCreate, hne]
    · simp [relSetFlags, hne]

/-- A registry holding a node context 1 and a relationship context 7,
exactly as a client would build it through `set_context`. -/
def reg1 : Registry := fun c =>
  if c = 7 then some (RELATIONSHIP, some ⟨some 1, some 1, none, none, none, false, true⟩)
  else if c = 1 then some (NODE, none)
  else none

/-- Concrete instance of the C9 theorem: ctx 7 is registered for
RELATIONSHIP, yet `relationship.create` on a writable pool raises
BadContext. -/
theorem registry_pair_vs_util_indexing_witness :
    ctxTbl reg1 7 ≠ PyV.vTbl RELATIONSHIP ∧
    relCreate false reg1 (fun _ => []) (fun _ => []) (fun _ => none)
        (fun _ _ => none) true 7 PyVal.vnone [] = ([], .error (.badContext 7)) :=
  ⟨((registry_pair_vs_util_indexing reg1 0 0 7 RELATIONSHIP none
        (some ⟨some 1, some 1, none, none, none, false, true⟩) reg1
        (fun _ => []) (fun _ => []) (fun _ => none) (fun _ _ => none) true
        none PyVal.vnone [] [] []).2 rfl).2.1,
    ((registry_pair_vs_util_indexing reg1 0 0 7 RELATIONSHIP none
        (some ⟨some 1, some 1, none, none, none, false, true⟩) reg1
        (fun _ => []) (fun _ => []) (fun _ => none) (fun _ _ => none) true
        none PyVal.vnone [] [] []).2 rfl).2.2.2.1⟩

/-- A registry holding a node context 1 and a UTF-storage property context 2,
matching the repository's own test setup in tests/test_prop.py. -/
def regU : Registry := fun c =>
  if c = 2 then some (PROPERTY, some ⟨some 1, none, some stUTF, none, none, false, true⟩)
  else if c = 1 then some (NODE, none)
  else none

/-- C6 (claim correct, code wrong): `storage_wrap` raises IndexError for
every registered ctx because `ctx_storage` reads `META[ctx][2]` from the
stored 2-tuple, and `storage_unwrap` fails the same way (and its UTF branch
would decode the storage constant, not the value), so
`storage_unwrap(ctx, storage_wrap(ctx, v))` never returns `v`.  Evaluated
here at a registered UTF property context and the text value "a". -/
theorem storage_roundtrip_breaks_on_registered_ctx :
    storageWrap regU (fun _ => [97]) (fun _ => none) (fun _ _ => none) 2
        (PyVal.vunicode "a") = .error (.py .indexError) ∧
    storageUnwrap regU id (fun _ x => x) 2 (PyVal.vstr [97]) =
        .error (.py .indexError) ∧
    ∀ v, storageUnwrap regU id (fun _ x => x) 2 v ≠ .ok (PyVal.vunicode "a") := by
  refine ⟨rfl, rfl, fun v => ?_⟩
  have h : storageUnwrap regU id (fun _ x => x) 2 v = .error (.py .indexError) := rfl
  simp [h]

/-! ## Phonetic name lookups (txn.py lines 754-791, 964-996, 1165-1215)

`util.dmetaphone` and `util.ctx_phonetic_loose` are called by txn.py but are
absent from src/datahog/const/util.py.  Modelled from the spec:
`dmetaphone(value)` is an opaque pure function returning a primary code and
an optional alternate `(dm, dmalt)` — its two outputs are parameters below —
and `ctx_phonetic_loose(ctx)` reads the context's `phonetic_loose` flag,
passed as the `loose` parameter. -/

/-- The shard-probing for-loop: first shard in the read list on which
`query.find_phonetic_lookup` reports a row for this code (the for-else
returns `none` when no shard has it). -/
def findFirst (found : String → Nat → Bool) (code : String) :
    List Nat → Option Nat
  | [] => none
  | s :: rest => if found code s then some s else findFirst found code rest

/-- `_find_phonetic_lookup_shards` (txn.py lines 964-996).  The source's
gate at line 980 is `if (dmalt is None) or not util.ctx_phonetic_loose:` —
the attribute is referenced without being called, so (with the spec-modelled
accessor in place) it is a truthy function object and the right disjunct is
always False: the gate reduces to `dmalt is None` and the `loose` flag is
never consulted, which is why the parameter is unused here. -/
def findPhoneticLookupShards (readPhon : String → List Nat)
    (found : String → Nat → Bool) (_loose : Bool) (dm : String)
    (dmalt : Option String) : Option (Nat × Option Nat) :=
  match findFirst found dm (readPhon dm) with
  | none => none
  | some dmshard =>
    match dmalt with
    | none => some (dmshard, none)
    | some alt =>
      match findFirst found alt (readPhon alt) with
      | none => none
      | some dmashard => some (dmshard, some dmashard)

/-- `_write_phonetic_lookups` (txn.py lines 754-791): insert the primary
lookup on `shard_for_phonetic_write(dm)` under a nested two-phase handle
(rollback and False when the insert fails); commit and True when `dmalt` is
null or `ctx_phonetic_loose(ctx)` is false (line 773 calls the accessor);
otherwise insert the secondary lookup on `shard_for_phonetic_write(dmalt)`
in the `elsewhere()` phase.  Returns the shards written to, in order, and
the boolean result. -/
def writePhoneticLookups (writeShard : String → Nat) (loose : Bool)
    (dm : String) (dmalt : Option String) (insPrimary insSecondary : Bool) :
    List Nat × Bool :=
  let shard1 := writeShard dm
  if !insPrimary then ([shard1], false)
  else
    match dmalt with
    | none => ([shard1], true)
    | some alt =>
      if !loose then ([shard1], true)
      else ([shard1, writeShard alt], insSecondary)

/-- `_remove_phonetic_lookups_both` (txn.py lines 1182-1215): two-phase on
the primary lookup shard, mirror removal on the alternate's shard.  The
codes are passed to the query layer as-is (`removedAt` answers
`query.remove_phonetic_lookup`). -/
def removePhoneticBoth (dmshard dmashard : Nat) (dm dma : Option String)
    (removedAt : Option String → Nat → Bool) : List Nat × Bool :=
  if !(removedAt dm dmshard) then ([dmshard], false)
  else if !(removedAt dma dmashard) then ([dmshard, dmashard], false)
  else ([dmshard, dmashard], true)

/-- `_remove_phonetic_lookups` (txn.py lines 1165-1180): dispatch on whether
the locate step returned an alternate shard; with one it removes on both
shards, otherwise only on the primary shard.  Returns the shards touched and
the result. -/
def removePhoneticLookups (lookupShard : Nat × Option Nat) (dm : String)
    (dmalt : Option String) (removedAt : Option String → Nat → Bool) :
    List Nat × Bool :=
  match lookupShard with
  | (dmshard, some dmashard) =>
    removePhoneticBoth dmshard dmashard (some dm) dmalt removedAt
  | (dmshard, none) => ([dmshard], removedAt (some dm) dmshard)

/-- C7 fails on the locate path (code bug): with a context whose
`phonetic_loose` flag is false and a value whose alternate code is non-null
("KORN"/"KTRN", lookup rows on shards 3 and 7), `_find_phonetic_lookup_shards`
still probes and returns the alternate's shard 7, and the remove path then
touches shard 7 — while the write path, which calls the accessor correctly,
touches only the primary shard 3.  The claim (secondary touched only when
`dmalt` is non-null AND `phonetic_loose` is true) is the documented intent;
the code's uncalled `not util.ctx_phonetic_loose` at line 980 ignores the
flag. -/
theorem phonetic_loose_flag_ignored_in_locate :
    findPhoneticLookupShards
        (fun c => if c = "KORN" then [3] else [7]) (fun _ _ => true)
        false "KORN" (some "KTRN") = some (3, some 7) ∧
    (writePhoneticLookups (fun c => if c = "KORN" then 3 else 7)
        false "KORN" (some "KTRN") true true).1 = [3] ∧
    (removePhoneticLookups (3, some 7) "KORN" (some "KTRN")
        (fun _ _ => true)).1 = [3, 7] := by
  refine ⟨rfl, rfl, rfl⟩

/-! ## Prefix name search (txn.py, `_search_prefix`, lines 812-831) -/

/-- A row of the prefix-lookup result set (only `value` is consulted by the
coordinator). -/
structure NameRow where
  value : String
  base_id : Nat
deriving DecidableEq, Repr

/-- The sort key of `names.sort(key=lambda name: name['value'])`. -/
def valueLe (a b : NameRow) : Prop := a.value ≤ b.value

instance : DecidableRel valueLe := fun a b => by
  unfold valueLe; infer_instance

/-- `_search_prefix` (txn.py lines 812-831): extend `names` with each probe
shard's rows, sort by value and truncate when more than one shard was
probed, then return `names, names[-1]['value']` — the `[-1]` indexing is
unconditional, so an empty result set raises IndexError.  Python's sort is
the stable ascending sort, which `List.insertionSort` also computes. -/
def searchPfx (shards : List Nat) (fetch : Nat → List NameRow) (limit : Nat) :
    Except PyErr (List NameRow × String) :=
  let names := shards.flatMap fetch
  let names :=
    if 1 < shards.length then (List.insertionSort valueLe names).take limit
    else names
  match names.getLast? with
  | none => .error .indexError
  | some lastRow => .ok (names, lastRow.value)

/-- C10: when every probed shard yields zero matching rows, `_search_prefix`
raises an out-of-range indexing error (from `names[-1]`) instead of
returning a (results, token) pair, and any non-crashing return requires at
least one shard to have produced a result. -/
theorem search_prefix_crashes_on_empty (shards : List Nat)
    (fetch : Nat → List NameRow) (limit : Nat) :
    ((∀ s ∈ shards, fetch s = []) →
      searchPfx shards fetch limit = .error .indexError) ∧
    (∀ res, searchPfx shards fetch limit = .ok res →
      ∃ s ∈ shards, fetch s ≠ []) := by
  have hmain : (∀ s ∈ shards, fetch s = []) →
      searchPfx shards fetch limit = .error .indexError := by
    intro h
    have hnil : shards.flatMap fetch = [] := List.flatMap_eq_nil_iff.mpr h
    unfold searchPfx
    rw [hnil]
    by_cases hs : 1 < shards.length <;> simp [hs]
  refine ⟨hmain, ?_⟩
  intro res hres
  by_contra hc
  push_neg at hc
  rw [hmain hc] at hres
  exact Except.noConfusion hres

/-- Concrete instance of the C10 theorem: two shards, both empty, raise
IndexError. -/
theorem search_prefix_crashes_on_empty_witness :
    searchPfx [0, 1] (fun _ => []) 5 = .error .indexError :=
  (search_prefix_crashes_on_empty [0, 1] (fun _ => []) 5).1 (by simp)

/-! ## Phonetic name search (txn.py, `_search_phonetic`, lines 834-887) -/

/-- A row of the phonetic-lookup result set. -/
structure PhonRow where
  base_id : Nat
  ctx : Nat
  value : String
  code : String
deriving DecidableEq, Repr

/-- The sort key `_sortkey(shardbits)` (txn.py lines 834-837):
`(base_id & ((1 << (64 - shardbits)) - 1), base_id)`. -/
def phonKey (shardbits : Nat) (r : PhonRow) : Nat × Nat :=
  (r.base_id &&& ((1 <<< (64 - shardbits)) - 1), r.base_id)

/-- Python's ascending comparison of the two sort-key tuples
(lexicographic). -/
def phonLe (shardbits : Nat) (a b : PhonRow) : Prop :=
  (phonKey shardbits a).1 < (phonKey shardbits b).1 ∨
    ((phonKey shardbits a).1 = (phonKey shardbits b).1 ∧
      (phonKey shardbits a).2 ≤ (phonKey shardbits b).2)

instance (sb : Nat) : DecidableRel (phonLe sb) := fun a b => by
  unfold phonLe; infer_instance

/-- The de-duplication loop (txn.py lines 877-886): keep the first
occurrence of each `(base_id, ctx, value)` triple, `seen` being the set
accumulated so far. -/
def dedupTrips : List PhonRow → List (Nat × Nat × String) → List PhonRow
  | [], _ => []
  | r :: rest, seen =>
    if (r.base_id, r.ctx, r.value) ∈ seen then dedupTrips rest seen
    else r :: dedupTrips rest ((r.base_id, r.ctx, r.value) :: seen)

/-- One step of the dict assignment `token[r.pop('code')] = r['base_id']`:
update the entry for the code in place or append a new one (python dicts
keep insertion order). -/
def upsertTok : List (String × Nat) → String → Nat → List (String × Nat)
  | [], c, b => [(c, b)]
  | (c', b') :: rest, c, b =>
    if c' = c then (c, b) :: rest else (c', b') :: upsertTok rest c b

/-- `_phontoken(results)` (txn.py lines 839-843): fold the rows in order
into the token dict. -/
def phontoken : List PhonRow → List (String × Nat) → List (String × Nat)
  | [], acc => acc
  | r :: rest, acc => phontoken rest (upsertTok acc r.code r.base_id)

/-- Lookup in the token dict. -/
def tokLookup : List (String × Nat) → String → Option Nat
  | [], _ => none
  | (c', b) :: rest, c => if c' = c then some b else tokLookup rest c

/-- The base_id of the last row carrying `code` in a list — for a sorted
list, the base_id of that code's last entry in sort order. -/
def lastBaseFor : List PhonRow → String → Option Nat
  | [], _ => none
  | r :: rest, c =>
    match lastBaseFor rest c with
    | some b => some b
    | none => if r.code = c then some r.base_id else none

/-- `_search_phonetic` (txn.py lines 845-887), as a function of the read
lists (`pool.shards_for_lookup_phonetic`) and the per-code-and-shard query
answers (`fetch`, absorbing the `start` offsets).  With no alternate code or
a non-loose context it returns the primary rows and their token; otherwise
it gathers both codes' rows, sorts globally by `_sortkey(shardbits)`
(python's stable ascending sort, computed here by `List.insertionSort`),
builds the token from the sorted pre-deduplication list, de-duplicates by
the `(base_id, ctx, value)` triple and truncates to `limit`. -/
def searchPhonetic (shardbits : Nat) (loose : Bool)
    (readPhon : String → List Nat) (fetch : String → Nat → List PhonRow)
    (limit : Nat) (dm : String) (dmalt : Option String) :
    List PhonRow × List (String × Nat) :=
  let primary := (readPhon dm).flatMap (fetch dm)
  match dmalt with
  | none => (primary, phontoken primary [])
  | some alt =>
    if !loose then (primary, phontoken primary [])
    else
      let results := primary ++ (readPhon alt).flatMap (fetch alt)
      let sorted := List.insertionSort (phonLe shardbits) results
      ((dedupTrips sorted []).take limit, phontoken sorted [])

/-- Helper: `phonLe` is total. -/
theorem phonLe_total (sb : Nat) (a b : PhonRow) :
    phonLe sb a b ∨ phonLe sb b a := by
  unfold phonLe
  omega

/-- Helper: `phonLe` is transitive. -/
theorem phonLe_trans (sb : Nat) (a b c : PhonRow) :
    phonLe sb a b → phonLe sb b c → phonLe sb a c := by
  unfold phonLe
  omega

/-- Helper: updating one code's entry leaves every lookup answer either the
new binding or the old answer for other codes. -/
theorem tokLookup_upsertTok (acc : List (String × Nat)) (c : String) (b : Nat) :
    ∀ c', tokLookup (upsertTok acc c b) c' =
      if c = c' then some b else tokLookup acc c' := by
  induction acc with
  | nil =>
    intro c'
    by_cases h : c = c' <;> simp [upsertTok, tokLookup, h]
  | cons p rest ih =>
    intro c'
    rcases p with ⟨c0, b0⟩
    by_cases h0 : c0 = c
    · subst h0
      by_cases h : c0 = c' <;> simp [upsertTok, tokLookup, h]
    · simp only [upsertTok, if_neg h0, tokLookup]
      by_cases h : c0 = c'
      · subst h
        have hcc : ¬c = c0 := fun he => h0 he.symm
        simp [tokLookup, hcc]
      · simp [tokLookup, h, ih c']

/-- Helper: the token built by `_phontoken` answers, for each code, the
base_id of that code's last row in the folded list (falling back to the
accumulator). -/
theorem tokLookup_phontoken (l : List PhonRow) :
    ∀ acc c, tokLookup (phontoken l acc) c =
      match lastBaseFor l c with
      | some b => some b
      | none => tokLookup acc c := by
  induction l with
  | nil => intro acc c; simp [phontoken, lastBaseFor]
  | cons r rest ih =>
    intro acc c
    simp only [phontoken, lastBaseFor, ih]
    rcases hlast : lastBaseFor rest c with _ | b
    · rw [tokLookup_upsertTok]
      by_cases h : r.code = c
      · simp [h]
      · have h' : ¬r.code = c := h
        simp [h, h']
    · rfl

/-- Helper: the de-duplicated list is a sublist of the input. -/
theorem dedupTrips_sublist (l : List PhonRow) :
    ∀ seen, List.Sublist (dedupTrips l seen) l := by
  induction l with
  | nil => intro seen; simp [dedupTrips]
  | cons r rest ih =>
    intro seen
    unfold dedupTrips
    by_cases h : (r.base_id, r.ctx, r.value) ∈ seen
    · simp only [if_pos h]
      exact List.Sublist.cons r (ih seen)
    · simp only [if_neg h]
      exact List.Sublist.cons₂ r (ih _)

/-- Helper: every emitted row's triple avoids the `seen` accumulator. -/
theorem dedupTrips_not_seen (l : List PhonRow) :
    ∀ seen x, x ∈ dedupTrips l seen →
      (x.base_id, x.ctx, x.value) ∉ seen := by
  induction l with
  | nil => intro seen x hx; simp [dedupTrips] at hx
  | cons r rest ih =>
    intro seen x hx
    unfold dedupTrips at hx
    by_cases h : (r.base_id, r.ctx, r.value) ∈ seen
    · rw [if_pos h] at hx
      exact ih seen x hx
    · rw [if_neg h] at hx
      rcases List.mem_cons.mp hx with rfl | hx'
      · exact h
      · have := ih _ x hx'
        intro hmem
        exact this (List.mem_cons_of_mem _ hmem)

/-- Helper: de-duplication leaves pairwise-distinct triples. -/
theorem dedupTrips_pairwise (l : List PhonRow) :
    ∀ seen, List.Pairwise
      (fun a b => (a.base_id, a.ctx, a.value) ≠ (b.base_id, b.ctx, b.value))
      (dedupTrips l seen) := by
  induction l with
  | nil => intro seen; simp [dedupTrips]
  | cons r rest ih =>
    intro seen
    unfold dedupTrips
    by_cases h : (r.base_id, r.ctx, r.value) ∈ seen
    · rw [if_pos h]; exact ih seen
    · rw [if_neg h]
      refine List.Pairwise.cons ?_ (ih _)
      intro y hy heq
      have := dedupTrips_not_seen rest _ y hy
      exact this (heq ▸ List.mem_cons_self _ _)

/-- Claim C8 as stated is false at a concrete input: with loose matching,
codes "A" (one row, base_id 5, read shard 0) and alternate "B" (one row,
base_id 9, read shard 1) and `limit = 1`, only the base_id-5 row is emitted,
yet the continuation token — built from the sorted pre-truncation list —
still maps "B" to 9 although no row with code "B" was emitted. -/
theorem phontoken_includes_unemitted_code_cex :
    (searchPhonetic 8 true
        (fun c => if c = "A" then [0] else [1])
        (fun c _ => if c = "A" then [⟨5, 1, "v", "A"⟩] else [⟨9, 1, "w", "B"⟩])
        1 "A" (some "B")).1 = [⟨5, 1, "v", "A"⟩] ∧
    tokLookup (searchPhonetic 8 true
        (fun c => if c = "A" then [0] else [1])
        (fun c _ => if c = "A" then [⟨5, 1, "v", "A"⟩] else [⟨9, 1, "w", "B"⟩])
        1 "A" (some "B")).2 "B" = some 9 := by
  decide

/-- C8 (amended): for a loose phonetic search with a non-null alternate
code, the emitted list is sorted by `(base_id & (2^(64-shardbits)-1),
base_id)`, de-duplicated by `(base_id, ctx, value)`, truncated to `limit`
and drawn from the globally sorted gather of both codes' shards; and the
continuation token maps each code to the base_id of that code's **last row
in the globally sorted pre-deduplication, pre-truncation list** (not the
largest base_id actually emitted: the token is computed before
de-duplication and truncation). -/
theorem search_phonetic_sort_dedup_truncate_token (sb : Nat)
    (readPhon : String → List Nat) (fetch : String → Nat → List PhonRow)
    (limit : Nat) (dm alt : String) :
    List.Sorted (phonLe sb)
      (searchPhonetic sb true readPhon fetch limit dm (some alt)).1 ∧
    List.Pairwise
      (fun a b => (a.base_id, a.ctx, a.value) ≠ (b.base_id, b.ctx, b.value))
      (searchPhonetic sb true readPhon fetch limit dm (some alt)).1 ∧
    (searchPhonetic sb true readPhon fetch limit dm (some alt)).1.length ≤ limit ∧
    List.Sublist (searchPhonetic sb true readPhon fetch limit dm (some alt)).1
      (List.insertionSort (phonLe sb)
        ((readPhon dm).flatMap (fetch dm) ++ (readPhon alt).flatMap (fetch alt))) ∧
    (∀ c, tokLookup
        (searchPhonetic sb true readPhon fetch limit dm (some alt)).2 c =
      lastBaseFor
        (List.insertionSort (phonLe sb)
          ((readPhon dm).flatMap (fetch dm) ++ (readPhon alt).flatMap (fetch alt)))
        c) := by
  have hres : searchPhonetic sb true readPhon fetch limit dm (some alt) =
      ((dedupTrips (List.insertionSort (phonLe sb)
          ((readPhon dm).flatMap (fetch dm) ++
            (readPhon alt).flatMap (fetch alt))) []).take limit,
        phontoken (List.insertionSort (phonLe sb)
          ((readPhon dm).flatMap (fetch dm) ++
            (readPhon alt).flatMap (fetch alt))) []) := rfl
  rw [hres]
  have hsorted : List.Sorted (phonLe sb)
      (List.insertionSort (phonLe sb)
        ((readPhon dm).flatMap (fetch dm) ++ (readPhon alt).flatMap (fetch alt))) :=
    @List.sorted_insertionSort PhonRow (phonLe sb) _
      ⟨fun a b => phonLe_total sb a b⟩ ⟨fun a b c => phonLe_trans sb a b c⟩ _
  have hsub : List.Sublist
      ((dedupTrips (List.insertionSort (phonLe sb)
          ((readPhon dm).flatMap (fetch dm) ++
            (readPhon alt).flatMap (fetch alt))) []).take limit)
      (List.insertionSort (phonLe sb)
        ((readPhon dm).flatMap (fetch dm) ++ (readPhon alt).flatMap (fetch alt))) :=
    List.Sublist.trans (List.take_sublist _ _) (dedupTrips_sublist _ [])
  refine ⟨List.Pairwise.sublist hsub hsorted,
    List.Pairwise.sublist (List.take_sublist _ _) (dedupTrips_pairwise _ []),
    List.length_take_le _ _, hsub, ?_⟩
  intro c
  rw [tokLookup_phontoken]
  cases lastBaseFor (List.insertionSort (phonLe sb)
      ((readPhon dm).flatMap (fetch dm) ++ (readPhon alt).flatMap (fetch alt))) c <;>
    simp [tokLookup]

end Datahog
